import Mathlib

/-!
Verification of the grade-tracking and reporting utility.

The repository has two main variants of its computation core:
* `Joereport` — assignments carry a `type` field (`"Formative"` / `"Summative"`);
  a course computes group scores, progression, resubmission candidates,
  attendance and a sorted transcript; a student computes a weighted GPA
  (guarded against a zero total weight).
* `Joseph` — modules have no category; a course computes an unweighted
  average (which divides by the number of modules with no guard) and retake
  candidates; the student GPA divides by the total weight with no guard.

Numbers are modelled as rationals (`ℚ`).  Python operations that can raise
`ZeroDivisionError` are modelled as `Option`-valued functions returning
`none` exactly on the raising inputs; guarded expressions (`x if cond else 0`)
are modelled with `if`.
-/

namespace Joereport

structure Assignment where
  name : String
  score : ℚ
  weight : ℚ
  type : String

def Assignment.get_weighted_score (a : Assignment) : ℚ :=
  a.score * a.weight / 100

structure Course where
  name : String
  assignments : List Assignment
  attendance : List (String × String)
  total_sessions : Nat

def Course.calculate_attendance (c : Course) : Option ℚ :=
  let total_present := (c.attendance.filter (fun e => e.2 == "Present")).length
  if c.total_sessions = 0 then none
  else some (((total_present : ℚ) / (c.total_sessions : ℚ)) * 100)

def Course.calculate_group_score (c : Course) (group_type : String) : ℚ × ℚ :=
  c.assignments.foldl
    (fun acc a =>
      if a.type == group_type
      then (acc.1 + a.weight, acc.2 + a.get_weighted_score)
      else acc)
    (0, 0)

def Course.check_progression (c : Course) : Bool × ℚ × ℚ :=
  let fg := c.calculate_group_score "Formative"
  let sg := c.calculate_group_score "Summative"
  let formative_total : ℚ := if fg.1 ≠ 0 then fg.2 / fg.1 * 100 else 0
  let summative_total : ℚ := if sg.1 ≠ 0 then sg.2 / sg.1 * 100 else 0
  let pass_formative := decide (formative_total ≥ 30)
  let pass_summative := decide (summative_total ≥ 20)
  (pass_formative && pass_summative, formative_total, summative_total)

def Course.get_resubmission_candidates (c : Course) : List String :=
  (c.assignments.filter
    (fun a => decide (a.score < 50) && a.type == "Formative")).map
    (fun a => a.name)

def Course.generate_transcript (c : Course) (sort_order : String) : List Assignment :=
  if sort_order == "descending"
  then c.assignments.mergeSort (fun a b => decide (b.score ≤ a.score))
  else c.assignments.mergeSort (fun a b => decide (a.score ≤ b.score))

structure Student where
  name : String
  email : String
  courses : List Course

def Student.calculate_gpa (s : Student) : ℚ :=
  let totals := s.courses.foldl
    (fun acc course => course.assignments.foldl
      (fun acc2 a => (acc2.1 + a.get_weighted_score, acc2.2 + a.weight)) acc)
    (0, 0)
  if totals.2 ≠ 0 then totals.1 / totals.2 * 100 else 0

/-- Spec-side definition: sum of every item's weight across every course. -/
def specTotalWeight (s : Student) : ℚ :=
  (s.courses.map (fun c => (c.assignments.map (fun a => a.weight)).sum)).sum

/-- Spec-side definition: sum of every item's `score * weight / 100` across
every course. -/
def specTotalWeightedScore (s : Student) : ℚ :=
  (s.courses.map
    (fun c => (c.assignments.map (fun a => a.score * a.weight / 100)).sum)).sum

end Joereport

namespace Joseph

structure Module where
  name : String
  score : ℚ
  weight : ℚ

def Module.get_weighted_score (m : Module) : ℚ :=
  m.score * m.weight / 100

structure Course where
  name : String
  modules : List Module

def Course.get_total_weighted_score (c : Course) : ℚ :=
  (c.modules.map (fun m => m.get_weighted_score)).sum

def Course.get_course_average (c : Course) : Option ℚ :=
  let total_score := (c.modules.map (fun m => m.score)).sum
  if c.modules.length = 0 then none
  else some (total_score / (c.modules.length : ℚ))

def Course.check_retakes (c : Course) : List String :=
  (c.modules.filter (fun m => decide (m.score < 50))).map (fun m => m.name)

structure Student where
  name : String
  email : String
  courses : List Course

def Student.calculate_gpa (s : Student) : Option ℚ :=
  let total_weighted_score := (s.courses.map (fun c => c.get_total_weighted_score)).sum
  let total_weight := ((s.courses.flatMap (fun c => c.modules)).map (fun m => m.weight)).sum
  if total_weight = 0 then none
  else some (total_weighted_score / total_weight * 100)

/-- The fallible computations of `generate_report`, course by course:
each course's average together with its retake list, then the GPA.
A `none` anywhere models the `ZeroDivisionError` propagating out. -/
def collect_rows : List Course → Option (List (ℚ × List String))
  | [] => some []
  | c :: rest =>
    match c.get_course_average, collect_rows rest with
    | some avg, some rows => some ((avg, c.check_retakes) :: rows)
    | _, _ => none

def Student.generate_report_data (s : Student) : Option (List (ℚ × List String) × ℚ) :=
  match collect_rows s.courses, s.calculate_gpa with
  | some rows, some gpa => some (rows, gpa)
  | _, _ => none

end Joseph

/-! ## Helper lemmas -/

namespace Joereport

lemma group_foldl (g : String) (l : List Assignment) (acc : ℚ × ℚ) :
    l.foldl
      (fun acc a =>
        if a.type == g
        then (acc.1 + a.weight, acc.2 + a.get_weighted_score)
        else acc) acc
      = (acc.1 + ((l.filter (fun a => a.type == g)).map (fun a => a.weight)).sum,
         acc.2 + ((l.filter (fun a => a.type == g)).map (fun a => a.get_weighted_score)).sum) := by
  induction l generalizing acc with
  | nil => simp
  | cons a l ih =>
    rw [List.foldl_cons, ih]
    cases h : a.type == g with
    | true => simp [h, add_assoc]
    | false => simp [h]

lemma group_score_eq (c : Course) (g : String) :
    c.calculate_group_score g =
      (((c.assignments.filter (fun a => a.type == g)).map (fun a => a.weight)).sum,
       ((c.assignments.filter (fun a => a.type == g)).map (fun a => a.get_weighted_score)).sum) := by
  unfold Course.calculate_group_score
  rw [group_foldl]
  simp

lemma gpa_inner_foldl (l : List Assignment) (acc : ℚ × ℚ) :
    l.foldl (fun acc2 a => (acc2.1 + a.get_weighted_score, acc2.2 + a.weight)) acc
      = (acc.1 + (l.map (fun a => a.get_weighted_score)).sum,
         acc.2 + (l.map (fun a => a.weight)).sum) := by
  induction l generalizing acc with
  | nil => simp
  | cons a l ih => simp [List.foldl_cons, ih, add_assoc]

lemma gpa_outer_foldl (cs : List Course) (acc : ℚ × ℚ) :
    cs.foldl
      (fun acc course => course.assignments.foldl
        (fun acc2 a => (acc2.1 + a.get_weighted_score, acc2.2 + a.weight)) acc) acc
      = (acc.1 + (cs.map (fun c => (c.assignments.map (fun a => a.get_weighted_score)).sum)).sum,
         acc.2 + (cs.map (fun c => (c.assignments.map (fun a => a.weight)).sum)).sum) := by
  induction cs generalizing acc with
  | nil => simp
  | cons c cs ih =>
    rw [List.foldl_cons, ih]
    simp [gpa_inner_foldl, add_assoc]

lemma calculate_gpa_eq (s : Student) :
    s.calculate_gpa =
      if specTotalWeight s ≠ 0
      then specTotalWeightedScore s / specTotalWeight s * 100
      else 0 := by
  unfold Student.calculate_gpa specTotalWeight specTotalWeightedScore
  rw [gpa_outer_foldl]
  simp [Assignment.get_weighted_score]

end Joereport

lemma mergeSort_filter_eq {α : Type} (le : α → α → Bool)
    (htrans : ∀ a b c, le a b = true → le b c = true → le a c = true)
    (htotal : ∀ a b, (le a b || le b a) = true)
    (p : α → Bool) (hp : ∀ a b, p a = true → p b = true → le a b = true)
    (l : List α) :
    (l.mergeSort le).filter p = l.filter p := by
  have hpair : (l.filter p).Pairwise (fun a b => le a b = true) :=
    List.pairwise_of_forall_mem_list
      (fun a ha b hb =>
        hp a b (List.mem_filter.mp ha).2 (List.mem_filter.mp hb).2)
  have hsub : (l.filter p).Sublist (l.mergeSort le) :=
    List.sublist_mergeSort htrans htotal hpair (List.filter_sublist l)
  have hid : (l.filter p).filter p = l.filter p := by
    simp [List.filter_filter]
  have hsub2 : (l.filter p).Sublist ((l.mergeSort le).filter p) := by
    have := hsub.filter p
    rwa [hid] at this
  have hperm : ((l.mergeSort le).filter p).Perm (l.filter p) :=
    (List.mergeSort_perm l le).filter p
  exact (hsub2.eq_of_length hperm.length_eq.symm).symm

/-! ## Concrete fixtures -/

namespace Joereport

/-- The end-to-end student of the spec: one course with items
(Formative, 85, 15), (Summative, 72, 20), (Summative, 90, 20). -/
def studentA : Student :=
  ⟨"A", "a@example.com",
   [⟨"c1",
     [⟨"f1", 85, 15, "Formative"⟩,
      ⟨"s1", 72, 20, "Summative"⟩,
      ⟨"s2", 90, 20, "Summative"⟩],
     [], 7⟩]⟩

/-- A course whose formative group lands exactly on 30% and whose summative
group lands exactly on 20%. -/
def progressionBoundary : Course :=
  ⟨"cb", [⟨"f", 30, 10, "Formative"⟩, ⟨"s", 20, 10, "Summative"⟩], [], 1⟩

end Joereport

/-! ## Claims -/

/-- Claim C8: for every graded item with score `s` and weight `w`,
`get_weighted_score` returns exactly `s * w / 100`, as a pure function of
the two numeric fields, in both the assignment variant and the module
variant. -/
theorem claim_C8_weighted_score :
    (∀ a : Joereport.Assignment, a.get_weighted_score = a.score * a.weight / 100) ∧
    (∀ m : Joseph.Module, m.get_weighted_score = m.score * m.weight / 100) :=
  ⟨fun _ => rfl, fun _ => rfl⟩

/-- Claim C2: `check_progression` returns the formative percentage
`formative_weighted_score / formative_weight * 100` (0 when the formative
weight is 0), the summative percentage likewise, and `passed = true` exactly
when both thresholds are met inclusively; a course sitting exactly on 30%
formative and 20% summative passes. -/
theorem claim_C2_check_progression (c : Joereport.Course) :
    ((c.check_progression).2.1 =
      if (c.calculate_group_score "Formative").1 = 0 then 0
      else (c.calculate_group_score "Formative").2
            / (c.calculate_group_score "Formative").1 * 100) ∧
    ((c.check_progression).2.2 =
      if (c.calculate_group_score "Summative").1 = 0 then 0
      else (c.calculate_group_score "Summative").2
            / (c.calculate_group_score "Summative").1 * 100) ∧
    ((c.check_progression).1 = true ↔
      30 ≤ (c.check_progression).2.1 ∧ 20 ≤ (c.check_progression).2.2) ∧
    Joereport.progressionBoundary.check_progression = (true, 30, 20) := by
  refine ⟨?_, ?_, ?_, ?_⟩
  · unfold Joereport.Course.check_progression
    rcases eq_or_ne (c.calculate_group_score "Formative").1 0 with h | h <;> simp [h]
  · unfold Joereport.Course.check_progression
    rcases eq_or_ne (c.calculate_group_score "Summative").1 0 with h | h <;> simp [h]
  · unfold Joereport.Course.check_progression
    simp [ge_iff_le]
  · have hf : Joereport.progressionBoundary.calculate_group_score "Formative" = (10, 3) := by
      rw [Joereport.group_score_eq]
      simp [Joereport.progressionBoundary, Joereport.Assignment.get_weighted_score,
        Prod.ext_iff]
      norm_num
    have hs : Joereport.progressionBoundary.calculate_group_score "Summative" = (10, 2) := by
      rw [Joereport.group_score_eq]
      simp [Joereport.progressionBoundary, Joereport.Assignment.get_weighted_score,
        Prod.ext_iff]
      norm_num
    unfold Joereport.Course.check_progression
    rw [hf, hs]
    norm_num

namespace Joereport

/-- Boundary fixture for resubmission: a Formative 49, a Formative 50 and a
Summative 10. -/
def resubCourse : Course :=
  ⟨"cr",
   [⟨"X", 49, 10, "Formative"⟩,
    ⟨"Y", 50, 10, "Formative"⟩,
    ⟨"Z", 10, 10, "Summative"⟩],
   [], 1⟩

def assignA : Assignment := ⟨"a1", 80, 10, "Formative"⟩

def assignB : Assignment := ⟨"a2", 60, 20, "Formative"⟩

/-- Two courses whose assignment lists are permutations of one another. -/
def coursePermA : Course := ⟨"cp", [assignB, assignA], [], 1⟩

def coursePermB : Course := ⟨"cp", [assignA, assignB], [], 1⟩

/-- A course whose only assignment is Summative, with a comfortable summative
percentage. -/
def onlySummativeCourse : Course := ⟨"cs", [⟨"s", 90, 20, "Summative"⟩], [], 1⟩

end Joereport

/-- Claim C5: `get_resubmission_candidates` returns exactly the names of the
Formative items scoring strictly below 50, in insertion order; on the
boundary fixture the Formative 49 is kept, the Formative 50 and the
Summative 10 are dropped. -/
theorem claim_C5_resubmission (c : Joereport.Course) :
    c.get_resubmission_candidates =
      (c.assignments.filter
        (fun a => a.type == "Formative" && decide (a.score < 50))).map
        (fun a => a.name) ∧
    Joereport.resubCourse.get_resubmission_candidates = ["X"] := by
  constructor
  · unfold Joereport.Course.get_resubmission_candidates
    rw [List.filter_congr (fun a _ => Bool.and_comm (decide (a.score < 50)) (a.type == "Formative"))]
  · unfold Joereport.Course.get_resubmission_candidates
    norm_num [Joereport.resubCourse]
    simp

/-- Claim C7: `calculate_group_score` returns the pair
(sum of weight, sum of `score * weight / 100`) over exactly the items whose
category equals the requested group, and the result is invariant under any
permutation of the assignment list. -/
theorem claim_C7_group_total (c : Joereport.Course) (g : String) :
    c.calculate_group_score g =
      (((c.assignments.filter (fun a => a.type == g)).map (fun a => a.weight)).sum,
       ((c.assignments.filter (fun a => a.type == g)).map
         (fun a => a.score * a.weight / 100)).sum) ∧
    (∀ d : Joereport.Course, d.assignments.Perm c.assignments →
      d.calculate_group_score g = c.calculate_group_score g) := by
  constructor
  · rw [Joereport.group_score_eq]
    simp [Joereport.Assignment.get_weighted_score]
  · intro d hd
    rw [Joereport.group_score_eq, Joereport.group_score_eq]
    exact Prod.ext
      (((hd.filter (fun a => a.type == g)).map (fun a => a.weight)).sum_eq)
      (((hd.filter (fun a => a.type == g)).map
        (fun a => a.get_weighted_score)).sum_eq)

/-- Witness for claim C7: swapping the two assignments of a concrete course
leaves the Formative group totals unchanged. -/
theorem claim_C7_witness :
    Joereport.coursePermA.calculate_group_score "Formative" =
      Joereport.coursePermB.calculate_group_score "Formative" :=
  (claim_C7_group_total Joereport.coursePermB "Formative").2
    Joereport.coursePermA
    (List.Perm.swap Joereport.assignA Joereport.assignB [])

/-- Claim C10: a course containing no Formative item (in particular an empty
course) never passes progression: the formative percentage defaults to 0,
below the inclusive threshold 30, whatever the summative group does. -/
theorem claim_C10_no_formative (c : Joereport.Course)
    (h : ∀ a ∈ c.assignments, a.type ≠ "Formative") :
    (c.check_progression).1 = false := by
  have hf : c.assignments.filter (fun a => a.type == "Formative") = [] :=
    List.filter_eq_nil_iff.mpr (fun a ha => by simpa using h a ha)
  simp only [Joereport.Course.check_progression]
  rw [Joereport.group_score_eq, hf]
  norm_num

/-- Witness for claim C10: a course whose single assignment is Summative with
a high score still fails progression. -/
theorem claim_C10_witness :
    (Joereport.onlySummativeCourse.check_progression).1 = false :=
  claim_C10_no_formative Joereport.onlySummativeCourse
    (by simp [Joereport.onlySummativeCourse])

/-- Claim C1: when the items across all courses have nonzero total weight,
the GPA is (sum over every item of `score * weight / 100`) divided by
(sum over every item of `weight`), times 100. -/
theorem claim_C1_gpa (s : Joereport.Student)
    (h : Joereport.specTotalWeight s ≠ 0) :
    s.calculate_gpa =
      Joereport.specTotalWeightedScore s / Joereport.specTotalWeight s * 100 := by
  rw [Joereport.calculate_gpa_eq, if_pos h]

/-- Witness for claim C1: the spec's end-to-end student — one course with
items (Formative, 85, 15), (Summative, 72, 20), (Summative, 90, 20) — has
total weight 55 ≠ 0, satisfies the GPA equation, and the resulting GPA is
within 0.01 of 82.09. -/
theorem claim_C1_witness :
    Joereport.specTotalWeight Joereport.studentA ≠ 0 ∧
    Joereport.studentA.calculate_gpa =
      Joereport.specTotalWeightedScore Joereport.studentA /
        Joereport.specTotalWeight Joereport.studentA * 100 ∧
    |Joereport.studentA.calculate_gpa - 8209 / 100| ≤ 1 / 100 := by
  have h : Joereport.specTotalWeight Joereport.studentA ≠ 0 := by
    norm_num [Joereport.specTotalWeight, Joereport.studentA]
  refine ⟨h, claim_C1_gpa Joereport.studentA h, ?_⟩
  rw [claim_C1_gpa Joereport.studentA h]
  norm_num [Joereport.specTotalWeight, Joereport.specTotalWeightedScore,
    Joereport.studentA]
  rw [abs_of_nonneg (by norm_num : (0 : ℚ) ≤ 1 / 1100)]
  norm_num

namespace Joereport

/-- A student with no courses at all. -/
def studentZero : Student := ⟨"Z", "z@example.com", []⟩

end Joereport

namespace Joseph

/-- A student with no courses at all, in the module variant. -/
def studentEmpty : Student := ⟨"Z", "z@example.com", []⟩

end Joseph

/-- Counterexample to claim C3 as stated: in the `Joseph` (module) variant a
student with zero courses makes `calculate_gpa` divide by a zero total
weight — a `ZeroDivisionError`, modelled as `none` — instead of returning 0. -/
theorem claim_C3_counterexample :
    Joseph.studentEmpty.courses = [] ∧
    Joseph.studentEmpty.calculate_gpa = none := by
  constructor
  · rfl
  · simp [Joseph.Student.calculate_gpa, Joseph.studentEmpty]

/-- Claim C3 amended: with zero total weight (in particular zero courses) the
`Joereport` variant of `calculate_gpa` returns 0 without failing, while the
`Joseph` (module) variant fails with a divide-by-zero, modelled as `none`. -/
theorem claim_C3_gpa_zero_weight (s : Joereport.Student) (t : Joseph.Student)
    (hs : Joereport.specTotalWeight s = 0)
    (ht : ((t.courses.flatMap (fun c => c.modules)).map (fun m => m.weight)).sum = 0) :
    s.calculate_gpa = 0 ∧ t.calculate_gpa = none := by
  constructor
  · rw [Joereport.calculate_gpa_eq]
    simp [hs]
  · simp [Joseph.Student.calculate_gpa, ht]

/-- Witness for claim C3 (amended): the two concrete students with no
courses. -/
theorem claim_C3_witness :
    Joereport.specTotalWeight Joereport.studentZero = 0 ∧
    Joereport.studentZero.calculate_gpa = 0 ∧
    Joseph.studentEmpty.calculate_gpa = none := by
  have hs : Joereport.specTotalWeight Joereport.studentZero = 0 := by
    simp [Joereport.specTotalWeight, Joereport.studentZero]
  have ht : ((Joseph.studentEmpty.courses.flatMap (fun c => c.modules)).map
      (fun m => m.weight)).sum = 0 := by
    simp [Joseph.studentEmpty]
  obtain ⟨h1, h2⟩ :=
    claim_C3_gpa_zero_weight Joereport.studentZero Joseph.studentEmpty hs ht
  exact ⟨hs, h1, h2⟩

namespace Joereport

/-- An attendance fixture: three Present and one Absent over four sessions. -/
def attendCourse : Course :=
  ⟨"ca", [], [("d1", "Present"), ("d2", "Present"), ("d3", "Absent"), ("d4", "Present")], 4⟩

/-- More Present entries than total sessions. -/
def overfullCourse : Course :=
  ⟨"co", [], [("d1", "Present"), ("d2", "Present"), ("d3", "Present")], 1⟩

/-- A course with zero total sessions but a recorded attendance entry. -/
def zeroSessionsCourse : Course := ⟨"cz", [], [("d1", "Present")], 0⟩

end Joereport

/-- Claim C4: with nonzero `total_sessions` the attendance percentage is
(count of Present entries) / `total_sessions` * 100 — the divisor is
`total_sessions`, not the number of recorded entries, so the result can
exceed 100 (the overfull fixture reaches 300) — and with `total_sessions = 0`
the computation fails with a divide-by-zero, modelled as `none`. -/
theorem claim_C4_attendance (c : Joereport.Course) :
    c.calculate_attendance =
      (if c.total_sessions = 0 then none
       else some (((c.attendance.countP (fun e => e.2 == "Present") : ℚ) /
         (c.total_sessions : ℚ)) * 100)) ∧
    Joereport.overfullCourse.calculate_attendance = some 300 ∧
    (100 : ℚ) < 300 ∧
    Joereport.zeroSessionsCourse.calculate_attendance = none := by
  refine ⟨?_, ?_, by norm_num, ?_⟩
  · simp [Joereport.Course.calculate_attendance, List.countP_eq_length_filter]
  · simp [Joereport.Course.calculate_attendance, Joereport.overfullCourse]
    norm_num
  · simp [Joereport.Course.calculate_attendance, Joereport.zeroSessionsCourse]

namespace Joereport

/-- The transcript fixture with scores 90, 40.59 and 100. -/
def transcriptCourse : Course :=
  ⟨"ct",
   [⟨"t1", 90, 10, "Formative"⟩,
    ⟨"t2", 4059 / 100, 20, "Formative"⟩,
    ⟨"t3", 100, 30, "Summative"⟩],
   [], 7⟩

lemma generate_transcript_asc (c : Course) :
    c.generate_transcript "ascending" =
      c.assignments.mergeSort (fun a b => decide (a.score ≤ b.score)) := by
  simp [Course.generate_transcript]

lemma generate_transcript_desc (c : Course) :
    c.generate_transcript "descending" =
      c.assignments.mergeSort (fun a b => decide (b.score ≤ a.score)) := by
  simp [Course.generate_transcript]

lemma leAsc_trans :
    ∀ a b c : Assignment,
      decide (a.score ≤ b.score) = true → decide (b.score ≤ c.score) = true →
      decide (a.score ≤ c.score) = true :=
  fun _ _ _ hab hbc =>
    decide_eq_true (le_trans (of_decide_eq_true hab) (of_decide_eq_true hbc))

lemma leAsc_total :
    ∀ a b : Assignment,
      (decide (a.score ≤ b.score) || decide (b.score ≤ a.score)) = true := by
  intro a b
  simp only [Bool.or_eq_true, decide_eq_true_eq]
  exact le_total a.score b.score

lemma leDesc_trans :
    ∀ a b c : Assignment,
      decide (b.score ≤ a.score) = true → decide (c.score ≤ b.score) = true →
      decide (c.score ≤ a.score) = true :=
  fun _ _ _ hab hbc =>
    decide_eq_true (le_trans (of_decide_eq_true hbc) (of_decide_eq_true hab))

lemma leDesc_total :
    ∀ a b : Assignment,
      (decide (b.score ≤ a.score) || decide (a.score ≤ b.score)) = true := by
  intro a b
  simp only [Bool.or_eq_true, decide_eq_true_eq]
  exact le_total b.score a.score

end Joereport

/-- Claim C6: the transcript is a permutation of the assignments in which any
two items with distinct scores appear in strict score order (non-decreasing
for ascending, non-increasing for descending) while items with equal scores
keep their relative insertion order (the sort is stable); on scores
[90, 40.59, 100] the ascending transcript is [40.59, 90, 100] and the
descending one is [100, 90, 40.59]. -/
theorem claim_C6_transcript (c : Joereport.Course) :
    ((c.generate_transcript "ascending").Perm c.assignments ∧
     (c.generate_transcript "ascending").Pairwise
       (fun a b => a.score ≠ b.score → a.score < b.score) ∧
     (∀ q : ℚ, (c.generate_transcript "ascending").filter
        (fun a => decide (a.score = q))
        = c.assignments.filter (fun a => decide (a.score = q)))) ∧
    ((c.generate_transcript "descending").Perm c.assignments ∧
     (c.generate_transcript "descending").Pairwise
       (fun a b => a.score ≠ b.score → b.score < a.score) ∧
     (∀ q : ℚ, (c.generate_transcript "descending").filter
        (fun a => decide (a.score = q))
        = c.assignments.filter (fun a => decide (a.score = q)))) ∧
    (Joereport.transcriptCourse.generate_transcript "ascending").map
      (fun a => a.score) = [4059 / 100, 90, 100] ∧
    (Joereport.transcriptCourse.generate_transcript "descending").map
      (fun a => a.score) = [100, 90, 4059 / 100] := by
  refine ⟨⟨?_, ?_, ?_⟩, ⟨?_, ?_, ?_⟩, ?_, ?_⟩
  · rw [Joereport.generate_transcript_asc]
    exact List.mergeSort_perm c.assignments _
  · rw [Joereport.generate_transcript_asc]
    exact (List.sorted_mergeSort Joereport.leAsc_trans Joereport.leAsc_total
      c.assignments).imp
      (fun hab hne => lt_of_le_of_ne (of_decide_eq_true hab) hne)
  · intro q
    rw [Joereport.generate_transcript_asc]
    exact mergeSort_filter_eq (fun a b => decide (a.score ≤ b.score))
      Joereport.leAsc_trans Joereport.leAsc_total
      (fun a => decide (a.score = q))
      (fun a b ha hb => decide_eq_true
        (le_of_eq ((of_decide_eq_true ha).trans (of_decide_eq_true hb).symm)))
      c.assignments
  · rw [Joereport.generate_transcript_desc]
    exact List.mergeSort_perm c.assignments _
  · rw [Joereport.generate_transcript_desc]
    exact (List.sorted_mergeSort Joereport.leDesc_trans Joereport.leDesc_total
      c.assignments).imp
      (fun hab hne => lt_of_le_of_ne (of_decide_eq_true hab) (Ne.symm hne))
  · intro q
    rw [Joereport.generate_transcript_desc]
    exact mergeSort_filter_eq (fun a b => decide (b.score ≤ a.score))
      Joereport.leDesc_trans Joereport.leDesc_total
      (fun a => decide (a.score = q))
      (fun a b ha hb => decide_eq_true
        (le_of_eq ((of_decide_eq_true hb).trans (of_decide_eq_true ha).symm)))
      c.assignments
  · rw [Joereport.generate_transcript_asc]
    norm_num [Joereport.transcriptCourse, List.mergeSort]
  · rw [Joereport.generate_transcript_desc]
    norm_num [Joereport.transcriptCourse, List.mergeSort]

namespace Joseph

lemma collect_rows_isSome (l : List Course)
    (h : ∀ c ∈ l, c.modules ≠ []) : (collect_rows l).isSome = true := by
  induction l with
  | nil => rfl
  | cons c rest ih =>
    have hlen : c.modules.length ≠ 0 := fun hl =>
      h c (List.mem_cons_self c rest) (List.length_eq_zero.mp hl)
    have hc : c.get_course_average.isSome = true := by
      unfold Course.get_course_average
      simp [hlen]
    obtain ⟨avg, havg⟩ := Option.isSome_iff_exists.mp hc
    obtain ⟨rows, hrows⟩ :=
      Option.isSome_iff_exists.mp (ih (fun d hd => h d (List.mem_cons_of_mem c hd)))
    simp [collect_rows, havg, hrows]

lemma calculate_gpa_isSome (s : Student)
    (hne : s.courses ≠ [])
    (hmods : ∀ c ∈ s.courses, c.modules ≠ [])
    (hw : ∀ c ∈ s.courses, ∀ m ∈ c.modules, 0 < m.weight) :
    (s.calculate_gpa).isSome = true := by
  have hpos :
      0 < ((s.courses.flatMap (fun c => c.modules)).map (fun m => m.weight)).sum := by
    apply List.sum_pos
    · intro x hx
      obtain ⟨m, hm, rfl⟩ := List.mem_map.mp hx
      obtain ⟨c, hc, hmc⟩ := List.mem_flatMap.mp hm
      exact hw c hc m hmc
    · obtain ⟨c, hc⟩ := List.exists_mem_of_ne_nil s.courses hne
      obtain ⟨m, hm⟩ := List.exists_mem_of_ne_nil c.modules (hmods c hc)
      exact List.ne_nil_of_mem
        (List.mem_map_of_mem (fun m => m.weight)
          (List.mem_flatMap.mpr ⟨c, hc, hm⟩))
  unfold Student.calculate_gpa
  simp [hpos.ne']

end Joseph

/-- Claim C9: in the module variant, a course with at least one item has
`get_course_average` equal to the unweighted mean of the scores, a course
with zero items fails with a divide-by-zero (`none`), and the report
computation as a whole succeeds on every well-formed non-empty input
(every course non-empty, all weights positive). -/
theorem claim_C9_course_average (c : Joseph.Course) (s : Joseph.Student)
    (hc : c.modules ≠ [])
    (hs : s.courses ≠ [])
    (hmods : ∀ d ∈ s.courses, d.modules ≠ [])
    (hw : ∀ d ∈ s.courses, ∀ m ∈ d.modules, 0 < m.weight) :
    c.get_course_average =
      some ((c.modules.map (fun m => m.score)).sum / (c.modules.length : ℚ)) ∧
    (∀ d : Joseph.Course, d.modules = [] → d.get_course_average = none) ∧
    (s.generate_report_data).isSome = true := by
  refine ⟨?_, ?_, ?_⟩
  · have hlen : c.modules.length ≠ 0 := fun hl => hc (List.length_eq_zero.mp hl)
    unfold Joseph.Course.get_course_average
    simp [hlen]
  · intro d hd
    unfold Joseph.Course.get_course_average
    simp [hd]
  · obtain ⟨rows, hrows⟩ :=
      Option.isSome_iff_exists.mp (Joseph.collect_rows_isSome s.courses hmods)
    obtain ⟨gpa, hgpa⟩ :=
      Option.isSome_iff_exists.mp (Joseph.calculate_gpa_isSome s hs hmods hw)
    unfold Joseph.Student.generate_report_data
    rw [hrows, hgpa]
    rfl

namespace Joseph

/-- A concrete two-module course of the module variant. -/
def jcourseW : Course := ⟨"jc", [⟨"m1", 80, 10⟩, ⟨"m2", 40, 20⟩]⟩

/-- A concrete well-formed student of the module variant. -/
def jstudentW : Student := ⟨"J", "j@example.com", [jcourseW]⟩

end Joseph

/-- Witness for claim C9: on the concrete two-module course and its student
the average is defined and the whole report computation succeeds. -/
theorem claim_C9_witness :
    Joseph.jcourseW.get_course_average =
      some ((Joseph.jcourseW.modules.map (fun m => m.score)).sum /
        (Joseph.jcourseW.modules.length : ℚ)) ∧
    (Joseph.jstudentW.generate_report_data).isSome = true :=
  ⟨(claim_C9_course_average Joseph.jcourseW Joseph.jstudentW
      (by simp [Joseph.jcourseW]) (by simp [Joseph.jstudentW])
      (by simp [Joseph.jstudentW, Joseph.jcourseW])
      (by norm_num [Joseph.jstudentW, Joseph.jcourseW])).1,
   (claim_C9_course_average Joseph.jcourseW Joseph.jstudentW
      (by simp [Joseph.jcourseW]) (by simp [Joseph.jstudentW])
      (by simp [Joseph.jstudentW, Joseph.jcourseW])
      (by norm_num [Joseph.jstudentW, Joseph.jcourseW])).2.2⟩
